import Mathlib

/-!
Verification development for the ScrollXiv paper-feed application.

The definitions below are a shallow embedding of the TypeScript sources:
 * the Prisma-backed paper store (`src/services/papers.ts`): `upsertPaper`,
   `getFeedPapers`, the seen/discarded marks;
 * the figure extractor (`src/services/figures.ts`): `extractFiguresFromAr5iv`,
   `parseFiguresFromHtml`, `stripHtml`, including an executable model of the
   JavaScript regexes it uses (greedy/lazy matching with backtracking);
 * AI figure selection (`src/services/ai.ts`): `selectBestFigure`;
 * the route handlers for `summarize`, `deep-summary`, `figures`, and the feed.

Database rows are modelled as typed records (the JSON (de)serialisation of
list/object columns is taken as the identity round trip).  Fallible external
calls (arXiv fetch, ar5iv fetch, LLM provider) are passed in as oracle
parameters, so each handler is a pure function of the store state, the request,
and the oracle outcomes.  JavaScript truthiness of nullable strings is modelled
explicitly (`none` and `some ""` are falsy).
-/

namespace ScrollXiv

/-- Bibliographic record as fetched from arXiv (interface `ArxivPaper`). -/
structure ArxivPaper where
  arxivId : String
  title : String
  authors : List String
  abstract : String
  categories : List String
  publishedDate : Int
  pdfUrl : String
deriving Repr, DecidableEq

/-- A figure extracted from the ar5iv HTML (interface `PaperFigure`). -/
structure PaperFigure where
  url : String
  caption : String
  index : Nat
  alt : Option String
deriving Repr, DecidableEq

/-- Result of figure selection.  In the source this is a JS object spread
`{...figures[i], reason}`; when the index expression is out of bounds the
spread of `undefined` produces an object carrying only `reason`, which we
model by `figure = none`. -/
structure SelectedFigure where
  figure : Option PaperFigure
  reason : String
deriving Repr, DecidableEq

/-- Parsed short summary returned by the provider (interface `PaperSummary`). -/
structure PaperSummary where
  hook : String
  keyConcepts : List String
  summary : String
  whyMatters : String
deriving Repr, DecidableEq

/-- One entry of `figureAnalysis` (interface `FigureAnalysis`). -/
structure FigureAnalysis where
  figureIndex : Nat
  description : String
  significance : String
deriving Repr, DecidableEq

/-- Parsed long-form analysis returned by the provider (interface `DeepSummary`). -/
structure DeepSummary where
  category : String
  problem : String
  contributions : List String
  technicalApproach : String
  priorWork : String
  evaluation : String
  strengths : List String
  limitations : List String
  implications : String
  figureAnalysis : List FigureAnalysis
deriving Repr, DecidableEq

/-- A row of the `Paper` table (JSON columns decoded, as in `toPaper`). -/
structure PaperRow where
  id : String
  arxivId : String
  title : String
  authors : List String
  abstract : String
  categories : List String
  publishedDate : Int
  pdfUrl : String
  hook : Option String
  keyConcepts : Option (List String)
  summary : Option String
  whyMatters : Option String
  deepSummary : Option DeepSummary
  figures : Option (List PaperFigure)
  selectedFigure : Option SelectedFigure
  figuresError : Option String
  createdAt : Int
  updatedAt : Int
deriving Repr, DecidableEq

/-- A row of the `SeenPaper` table. -/
structure SeenRow where
  paperId : String
  discarded : Bool
deriving Repr, DecidableEq

/-- The persistent state: the `Paper` table and the `SeenPaper` table. -/
structure Store where
  papers : List PaperRow
  seen : List SeenRow
deriving Repr, DecidableEq

/-- JS truthiness of a nullable string (`undefined`/`null` and `""` are falsy). -/
def jsTruthy : Option String → Bool
  | none => false
  | some s => ¬ s = ""

/-- JS `x || null` on a nullable string (falsy collapses to `null`). -/
def jsOrNull (o : Option String) : Option String :=
  if jsTruthy o then o else none

/-! ## Paper store (`src/services/papers.ts`) -/

/-- The `update` branch of `prisma.paper.upsert` in `upsertPaper`: overwrite
the bibliographic columns, leave every other column alone.  (`updatedAt` is
maintained by Prisma's `@updatedAt`.) -/
def applyBiblio (r : PaperRow) (p : ArxivPaper) (now : Int) : PaperRow :=
  { r with
    title := p.title
    authors := p.authors
    abstract := p.abstract
    categories := p.categories
    publishedDate := p.publishedDate
    pdfUrl := p.pdfUrl
    updatedAt := now }

/-- The `create` branch of `prisma.paper.upsert`: a fresh row with the
bibliographic columns set and every enrichment column `null`. -/
def createRow (freshId : String) (p : ArxivPaper) (now : Int) : PaperRow :=
  { id := freshId
    arxivId := p.arxivId
    title := p.title
    authors := p.authors
    abstract := p.abstract
    categories := p.categories
    publishedDate := p.publishedDate
    pdfUrl := p.pdfUrl
    hook := none
    keyConcepts := none
    summary := none
    whyMatters := none
    deepSummary := none
    figures := none
    selectedFigure := none
    figuresError := none
    createdAt := now
    updatedAt := now }

/-- `upsertPaper`: upsert keyed on the unique `arxivId` index.  `freshId` is
the id Prisma would generate for a newly created row, `now` the write time. -/
def upsertPaper (st : Store) (freshId : String) (now : Int) (p : ArxivPaper) :
    Store × PaperRow :=
  match st.papers.find? (fun r => r.arxivId == p.arxivId) with
  | some r =>
    let r' := applyBiblio r p now
    ({ st with
        papers := st.papers.map
          (fun q => if q.arxivId == p.arxivId then applyBiblio q p now else q) },
      r')
  | none =>
    let r := createRow freshId p now
    ({ st with papers := st.papers ++ [r] }, r)

/-- A sequence of `upsertPaper` calls (as `upsertPapers` performs, one per
fetched record, each with its own generated id and write time). -/
def upsertAll (st : Store) : List (String × Int × ArxivPaper) → Store
  | [] => st
  | (freshId, now, p) :: rest => upsertAll (upsertPaper st freshId now p).1 rest

/-- The unique index `Paper_arxivId_key`: at most one row per `arxivId`. -/
def uniqueArxivIds (st : Store) : Prop :=
  (st.papers.map (fun r => r.arxivId)).Nodup

/-- `getPaperById` (`prisma.paper.findUnique({ where: { id } })`). -/
def getPaperById (st : Store) (id : String) : Option PaperRow :=
  st.papers.find? (fun r => r.id == id)

/-- Row rewrite performed by `updatePaperSummary`. -/
def setSummaryFields (s : PaperSummary) (now : Int) (q : PaperRow) : PaperRow :=
  { q with
    hook := some s.hook
    keyConcepts := some s.keyConcepts
    summary := some s.summary
    whyMatters := some s.whyMatters
    updatedAt := now }

/-- `updatePaperSummary`: write the four short-summary columns of row `id`.
Returns `none` when no row matches (Prisma `update` would throw). -/
def updatePaperSummary (st : Store) (id : String) (s : PaperSummary) (now : Int) :
    Store × Option PaperRow :=
  match st.papers.find? (fun r => r.id == id) with
  | none => (st, none)
  | some r =>
    ({ st with papers := st.papers.map (fun q => if q.id == id then setSummaryFields s now q else q) },
      some (setSummaryFields s now r))

/-- Row rewrite performed by `updatePaperFigures`. -/
def setFigureFields (figs : List PaperFigure) (sel : Option SelectedFigure)
    (error : Option String) (now : Int) (q : PaperRow) : PaperRow :=
  { q with
    figures := some figs
    selectedFigure := sel
    figuresError := jsOrNull error
    updatedAt := now }

/-- `updatePaperFigures`: write `figures`, `selectedFigure`, and
`figuresError := error || null` on row `id`. -/
def updatePaperFigures (st : Store) (id : String) (figs : List PaperFigure)
    (sel : Option SelectedFigure) (error : Option String) (now : Int) :
    Store × Option PaperRow :=
  match st.papers.find? (fun r => r.id == id) with
  | none => (st, none)
  | some r =>
    ({ st with papers := st.papers.map (fun q => if q.id == id then setFigureFields figs sel error now q else q) },
      some (setFigureFields figs sel error now r))

/-- Row rewrite performed by `updatePaperDeepSummary`. -/
def setDeepSummaryField (d : DeepSummary) (now : Int) (q : PaperRow) : PaperRow :=
  { q with
    deepSummary := some d
    updatedAt := now }

/-- `updatePaperDeepSummary`: write the `deepSummary` column of row `id`. -/
def updatePaperDeepSummary (st : Store) (id : String) (d : DeepSummary) (now : Int) :
    Store × Option PaperRow :=
  match st.papers.find? (fun r => r.id == id) with
  | none => (st, none)
  | some r =>
    ({ st with papers := st.papers.map (fun q => if q.id == id then setDeepSummaryField d now q else q) },
      some (setDeepSummaryField d now r))

/-! ## Seen / discarded marks -/

/-- `markPaperAsSeen`: `seenPaper.upsert` whose `update` clause is empty, so an
existing mark (discarded or not) is left exactly as it is. -/
def markPaperAsSeen (st : Store) (paperId : String) : Store :=
  match st.seen.find? (fun m => m.paperId == paperId) with
  | some _ => st
  | none => { st with seen := st.seen ++ [{ paperId := paperId, discarded := false }] }

/-- `markPaperAsDiscarded`: `seenPaper.upsert` setting `discarded := true`. -/
def markPaperAsDiscarded (st : Store) (paperId : String) : Store :=
  match st.seen.find? (fun m => m.paperId == paperId) with
  | some _ =>
    let seen' := st.seen.map
      (fun m => if m.paperId == paperId then { m with discarded := true } else m)
    { st with seen := seen' }
  | none => { st with seen := st.seen ++ [{ paperId := paperId, discarded := true }] }

/-- `unmarkPaperAsSeen`: `seenPaper.deleteMany({ where: { paperId } })`. -/
def unmarkPaperAsSeen (st : Store) (paperId : String) : Store :=
  { st with seen := st.seen.filter (fun m => !(m.paperId == paperId)) }

/-- `isPaperSeen`: a mark for `paperId` exists. -/
def isPaperSeen (st : Store) (paperId : String) : Bool :=
  (st.seen.find? (fun m => m.paperId == paperId)).isSome

/-- `isPaperDiscarded`: `seen?.discarded ?? false`. -/
def isPaperDiscarded (st : Store) (paperId : String) : Bool :=
  match st.seen.find? (fun m => m.paperId == paperId) with
  | some m => m.discarded
  | none => false

/-- `getSeenPaperIds`: ids of every `SeenPaper` row, discarded or not. -/
def getSeenPaperIds (st : Store) : List String :=
  st.seen.map (fun m => m.paperId)

/-! ## Feed query (`getFeedPapers`) -/

/-- Descending publication date, the `orderBy: { publishedDate: "desc" }` key. -/
def dateDescLe (a b : PaperRow) : Bool :=
  b.publishedDate ≤ a.publishedDate

/-- The row set the windowed query ranges over: the `where` clause
`{ id: { notIn: seenIds } }`, applied only when `excludeSeen` and the seen set
is non-empty (exactly as in the source). -/
def feedBase (st : Store) (excludeSeen : Bool) : List PaperRow :=
  let seenIds := if excludeSeen then getSeenPaperIds st else []
  if excludeSeen && !seenIds.isEmpty then
    st.papers.filter (fun r => !(seenIds.contains r.id))
  else
    st.papers

/-- The filtered table in `publishedDate` descending order (the SQL
`WHERE ... ORDER BY publishedDate DESC`, modelled as a deterministic stable
sort). -/
def feedSorted (st : Store) (excludeSeen : Bool) : List PaperRow :=
  (feedBase st excludeSeen).insertionSort (fun a b => b.publishedDate ≤ a.publishedDate)

/-- Result of `getFeedPapers`. -/
structure FeedResult where
  papers : List PaperRow
  nextCursor : Option String
deriving Repr, DecidableEq

/-- The `limit + 1`-row window of the Prisma query in `getFeedPapers`:
`take: limit + 1` rows of the sorted, seen-filtered table, starting just past
the cursor row when a cursor is given (Prisma `cursor` + `skip: 1`; an
unlocatable cursor yields no rows). -/
def feedWindow (st : Store) (cursor : Option String) (limit : Nat)
    (excludeSeen : Bool) : List PaperRow :=
  let sorted := feedSorted st excludeSeen
  match cursor with
  | none => sorted.take (limit + 1)
  | some c =>
    match sorted.findIdx? (fun r => r.id == c) with
    | some i => (sorted.drop (i + 1)).take (limit + 1)
    | none => []

/-- `getFeedPapers`: fetch the `limit + 1` window, report the first `limit`
rows, and when a `limit + 1`-th row existed report the last returned row's id
as `nextCursor`.  The source reads `resultPapers[resultPapers.length - 1].id`,
which under `hasMore` with a positive limit is the last element; we use
`getLast?`. -/
def getFeedPapers (st : Store) (cursor : Option String) (limit : Nat)
    (excludeSeen : Bool) : FeedResult :=
  let window := feedWindow st cursor limit excludeSeen
  let hasMore := limit < window.length
  let resultPapers := if hasMore then window.take limit else window
  let nextCursor :=
    if hasMore then resultPapers.getLast?.map (fun r => r.id) else none
  { papers := resultPapers, nextCursor := nextCursor }

/-- Response body of the feed route (`GET /api/feed`). -/
structure FeedResponse where
  papers : List PaperRow
  nextCursor : Option String
  hasMore : Bool
deriving Repr, DecidableEq

/-- The paging part of the feed route: `getFeedPapers(cursor, 10)` and
`hasMore: !!nextCursor` (JS truthiness of the cursor string).  The route's
arXiv fetch + upsert on refresh/initial load happens before this and is
reflected in the store state `st` passed here. -/
def feedRespond (st : Store) (cursor : Option String) : FeedResponse :=
  let fr := getFeedPapers st cursor 10 true
  { papers := fr.papers
    nextCursor := fr.nextCursor
    hasMore := jsTruthy fr.nextCursor }

/-- Successive cursor-chained feed requests against a fixed store state:
page `0` is the cursorless request, page `k + 1` re-requests with page `k`'s
`nextCursor` (and is empty once the chain has ended). -/
def feedChain (st : Store) (limit : Nat) : Nat → FeedResult
  | 0 => getFeedPapers st none limit true
  | k + 1 =>
    match (feedChain st limit k).nextCursor with
    | some c => getFeedPapers st (some c) limit true
    | none => { papers := [], nextCursor := none }

/-! ## Figure extraction (`src/services/figures.ts`)

The extractor parses ar5iv HTML with three JavaScript regexes.  We model them
with executable matchers over `List Char` that reproduce the regexes'
semantics: greedy character-class stars with backtracking (longest first),
lazy bodies (shortest first, i.e. up to the first occurrence of the closing
literal), and the `/i` flag (case-insensitive literals). -/

/-- Case-insensitive character comparison (the regexes' `/i` flag). -/
def lcEq (a b : Char) : Bool :=
  a.toLower == b.toLower

/-- Consume the literal `lit` case-insensitively; return the remainder. -/
def litCI : List Char → List Char → Option (List Char)
  | [], s => some s
  | _, [] => none
  | l :: ls, c :: cs => if lcEq l c then litCI ls cs else none

/-- Greedy `p*` followed by continuation `k`, with regex backtracking: longer
star matches are tried first, shorter ones on failure of the continuation. -/
def starThen (p : Char → Bool) (k : List Char → Option α) : List Char → Option α
  | [] => k []
  | c :: cs =>
    if p c then
      match starThen p k cs with
      | some r => some r
      | none => k (c :: cs)
    else k (c :: cs)

/-- Split at the first occurrence of `c`: `(before, after-the-char)`.  This is
the deterministic effect of `[^c]*c` (the star cannot cross `c`). -/
def upToChar (c : Char) : List Char → Option (List Char × List Char)
  | [] => none
  | d :: ds =>
    if d == c then some ([], ds)
    else (upToChar c ds).map (fun r => (d :: r.1, r.2))

/-- Split at the first (case-insensitive) occurrence of `lit`: the lazy
capture `([\s\S]*?)lit`. -/
def upToLitCI (lit : List Char) : List Char → Option (List Char × List Char)
  | [] => (litCI lit []).map (fun rest => (([] : List Char), rest))
  | c :: cs =>
    match litCI lit (c :: cs) with
    | some rest => some ([], rest)
    | none => (upToLitCI lit cs).map (fun r => (c :: r.1, r.2))

/-- Tail of the figure open tag: `[^"]*ltx_figure[^"]*"[^>]*>`, starting right
after `class="`; returns the remainder after the closing `>`. -/
def figOpenRest (s : List Char) : Option (List Char) :=
  starThen (fun c => !(c == '"'))
    (fun t =>
      match litCI "ltx_figure".data t with
      | some t2 =>
        match upToChar '"' t2 with
        | some (_, u) =>
          match upToChar '>' u with
          | some (_, v) => some v
          | none => none
        | none => none
      | none => none) s

/-- Figure open tag after the literal `<figure`: `[^>]*class="` then
`figOpenRest`. -/
def figOpenTag (s : List Char) : Option (List Char) :=
  starThen (fun c => !(c == '>'))
    (fun t =>
      match litCI "class=\"".data t with
      | some t2 => figOpenRest t2
      | none => none) s

/-- One anchored match of `figureRegex`
(`<figure[^>]*class="[^"]*ltx_figure[^"]*"[^>]*>([\s\S]*?)<\/figure>`):
returns the captured inner HTML and the remainder after `</figure>`. -/
def matchFigureAt (s : List Char) : Option (List Char × List Char) :=
  match litCI "<figure".data s with
  | none => none
  | some s1 =>
    match figOpenTag s1 with
    | none => none
    | some s2 => upToLitCI "</figure>".data s2

/-- The `while (figureRegex.exec(html))` loop: repeatedly find the next match
and continue after it.  `fuel` bounds the scan (every step consumes at least
one character, so `fuel = length` is enough). -/
def scanFigures : Nat → List Char → List (List Char)
  | 0, _ => []
  | _, [] => []
  | fuel + 1, c :: cs =>
    match matchFigureAt (c :: cs) with
    | some (inner, rest) => inner :: scanFigures fuel rest
    | none => scanFigures fuel cs

/-- All `ltx_figure` block bodies of the document, in document order. -/
def findFigureBlocks (html : String) : List (List Char) :=
  scanFigures html.data.length html.data

/-- Tail of `imgRegex` after the src capture:
`[^>]*(?:alt="([^"]*)")?[^>]*>`; returns the `alt` capture (group 2). -/
def imgTail (s : List Char) : Option (Option (List Char)) :=
  starThen (fun c => !(c == '>'))
    (fun t =>
      let withAlt : Option (Option (List Char)) :=
        match litCI "alt=\"".data t with
        | some t2 =>
          match upToChar '"' t2 with
          | some (altCap, u) =>
            match upToChar '>' u with
            | some _ => some (some altCap)
            | none => none
          | none => none
        | none => none
      match withAlt with
      | some r => some r
      | none =>
        match upToChar '>' t with
        | some _ => some none
        | none => none) s

/-- Body of `imgRegex` after the literal `<img`:
`[^>]+src="([^"]+)"` then `imgTail`; returns `(src, alt)` captures. -/
def imgAfterTag (s : List Char) : Option (List Char × Option (List Char)) :=
  match s with
  | [] => none
  | c :: cs =>
    if !(c == '>') then
      starThen (fun d => !(d == '>'))
        (fun t =>
          match litCI "src=\"".data t with
          | some t2 =>
            match upToChar '"' t2 with
            | some (srcCap, u) =>
              if srcCap.isEmpty then none
              else (imgTail u).map (fun alt => (srcCap, alt))
            | none => none
          | none => none) cs
    else none

/-- One anchored match of `imgRegex`
(`<img[^>]+src="([^"]+)"[^>]*(?:alt="([^"]*)")?[^>]*>`). -/
def matchImgAt (s : List Char) : Option (List Char × Option (List Char)) :=
  match litCI "<img".data s with
  | none => none
  | some s1 => imgAfterTag s1

/-- `figureHtml.match(imgRegex)`: the first position where `imgRegex` matches. -/
def findFirstImg : List Char → Option (List Char × Option (List Char))
  | [] => none
  | c :: cs =>
    match matchImgAt (c :: cs) with
    | some r => some r
    | none => findFirstImg cs

/-- One anchored match of `captionRegex`
(`<figcaption[^>]*>([\s\S]*?)<\/figcaption>`): the captured caption HTML. -/
def matchCaptionAt (s : List Char) : Option (List Char) :=
  match litCI "<figcaption".data s with
  | none => none
  | some s1 =>
    match upToChar '>' s1 with
    | some (_, t) => (upToLitCI "</figcaption>".data t).map (fun r => r.1)
    | none => none

/-- `figureHtml.match(captionRegex)`: first caption capture in the block. -/
def findFirstCaption : List Char → Option (List Char)
  | [] => none
  | c :: cs =>
    match matchCaptionAt (c :: cs) with
    | some r => some r
    | none => findFirstCaption cs

/-- JS `\s` (whitespace class), restricted to the ASCII space characters. -/
def isJsSpace (c : Char) : Bool :=
  c == ' ' || c == '\t' || c == '\n' || c == '\r' || c == '\x0b' || c == '\x0c'

/-- `.replace(/<[^>]+>/g, " ")`: each tag becomes a single space; a `<` with
no matching `>` (or an empty `<>`) is kept verbatim. -/
def stripTags : Nat → List Char → List Char
  | 0, s => s
  | _, [] => []
  | fuel + 1, c :: cs =>
    if c == '<' then
      match upToChar '>' cs with
      | some (inner, rest) =>
        if inner.isEmpty then c :: stripTags fuel cs
        else ' ' :: stripTags fuel rest
      | none => c :: stripTags fuel cs
    else c :: stripTags fuel cs

/-- `.replace(/\s+/g, " ")`: collapse whitespace runs to a single space. -/
def collapseSpaces : Nat → List Char → List Char
  | 0, s => s
  | _, [] => []
  | fuel + 1, c :: cs =>
    if isJsSpace c then ' ' :: collapseSpaces fuel (cs.dropWhile isJsSpace)
    else c :: collapseSpaces fuel cs

/-- JS `String.prototype.trim`. -/
def trimChars (s : List Char) : List Char :=
  ((s.dropWhile isJsSpace).reverse.dropWhile isJsSpace).reverse

/-- `a.startsWith b` on character lists (structural, kernel-reducible). -/
def charsStartWith : List Char → List Char → Bool
  | _, [] => true
  | [], _ :: _ => false
  | c :: cs, p :: ps => c == p && charsStartWith cs ps

/-- `stripHtml`: drop tags, collapse whitespace, trim. -/
def stripHtml (s : List Char) : List Char :=
  let t := stripTags s.length s
  trimChars (collapseSpaces t.length t)

/-- Image URL rewriting in `parseFiguresFromHtml`: root-relative URLs get the
ar5iv host, other non-`http` URLs get the document's base path. -/
def rewriteImgUrl (arxivId : String) (src : String) : String :=
  if charsStartWith src.data "/".data then "https://ar5iv.labs.arxiv.org" ++ src
  else if ¬ charsStartWith src.data "http".data then
    "https://ar5iv.labs.arxiv.org/html/" ++ arxivId ++ "/" ++ src
  else src

/-- Caption text for a block: first caption capture stripped to plain text, or
the fallback `"Figure N"` when the block has no caption. -/
def captionFor (block : List Char) (index : Nat) : List Char :=
  match findFirstCaption block with
  | some cap => stripHtml cap
  | none => ("Figure " ++ toString index).data

/-- The loop body of `parseFiguresFromHtml` for one figure block: skip the
block when it has no image, otherwise build the figure record. -/
def figOfBlock (block : List Char) (arxivId : String) (index : Nat) :
    Option PaperFigure :=
  match findFirstImg block with
  | none => none
  | some (srcCap, altCap) =>
    some
      { url := rewriteImgUrl arxivId (String.mk srcCap)
        caption := String.mk (trimChars (captionFor block index))
        index := index
        alt :=
          match altCap with
          | some a => if a.isEmpty then none else some (String.mk a)
          | none => none }

/-- The `while` loop of `parseFiguresFromHtml`: `index` starts at 1 and is
incremented only when a figure is pushed. -/
def buildFigures (arxivId : String) : List (List Char) → Nat → List PaperFigure
  | [], _ => []
  | b :: bs, index =>
    match figOfBlock b arxivId index with
    | some f => f :: buildFigures arxivId bs (index + 1)
    | none => buildFigures arxivId bs index

/-- `parseFiguresFromHtml`. -/
def parseFiguresFromHtml (html : String) (arxivId : String) : List PaperFigure :=
  buildFigures arxivId (findFigureBlocks html) 1

/-! ## Extractor boundary (`extractFiguresFromAr5iv`) -/

/-- Result type of the extractor (`FigureExtractionResult`). -/
structure FigureExtractionResult where
  figures : List PaperFigure
  error : Option String
deriving Repr, DecidableEq

/-- Outcome of the `fetch` call: an HTTP response, or a thrown exception
(`some message` for an `Error`, `none` for a non-`Error` throw). -/
inductive FetchOutcome where
  | success (status : Nat) (body : String)
  | thrown (message : Option String)
deriving Repr, DecidableEq

/-- `arxivId.replace(/v\d+$/, "")`: strip a trailing version suffix. -/
def stripVersionSuffix (s : String) : String :=
  let rev := s.data.reverse
  let ds := rev.takeWhile Char.isDigit
  if ds.isEmpty then s
  else
    match rev.drop ds.length with
    | 'v' :: rest => String.mk rest.reverse
    | _ => s

/-- `AR5IV_BASE`. -/
def AR5IV_BASE : String := "https://ar5iv.labs.arxiv.org/html"

/-- `response.ok`: status in the 2xx range. -/
def responseOk (status : Nat) : Bool :=
  200 ≤ status && status ≤ 299

/-- `extractFiguresFromAr5iv`, with the network call passed as an oracle from
URL to outcome.  Every fetch/parse failure is converted into the error-string
channel; the function is total. -/
def extractFiguresFromAr5iv (arxivId : String) (fetch : String → FetchOutcome) :
    FigureExtractionResult :=
  let cleanId := stripVersionSuffix arxivId
  let ar5ivUrl := AR5IV_BASE ++ "/" ++ cleanId
  match fetch ar5ivUrl with
  | .thrown msg => { figures := [], error := some (msg.getD "Failed to fetch ar5iv") }
  | .success status body =>
    if !(responseOk status) then
      if status = 404 then
        { figures := [], error := some "ar5iv rendering not available" }
      else
        { figures := [], error := some ("ar5iv returned " ++ toString status) }
    else
      { figures := parseFiguresFromHtml body cleanId, error := none }

/-! ## Figure selection (`selectBestFigure`, `src/services/ai.ts`) -/

/-- The provider's parsed reply `{ selectedIndex, reason }`. -/
structure FigureSelectReply where
  selectedIndex : Int
  reason : String
deriving Repr, DecidableEq

/-- JS array read `figures[i]` for an integer index: `undefined` off range. -/
def jsGetFigure (figures : List PaperFigure) (i : Int) : Option PaperFigure :=
  if 0 ≤ i then figures[i.toNat]? else none

/-- `selectBestFigure`, given the parsed provider reply as an oracle: `null`
for an empty figure list, `null` when the reply index is `0` or greater than
the figure count, otherwise the spread `{...figures[selectedIndex - 1],
reason}` (a negative index reads `undefined` and yields a reason-only
object). -/
def selectBestFigure (figures : List PaperFigure) (reply : FigureSelectReply) :
    Option SelectedFigure :=
  if figures.length = 0 then none
  else if reply.selectedIndex = 0 ∨ (figures.length : Int) < reply.selectedIndex then
    none
  else
    some { figure := jsGetFigure figures (reply.selectedIndex - 1)
           reason := reply.reason }

/-! ## Route handlers -/

/-- A JSON route response: HTTP status plus the fields the handlers emit. -/
structure ApiResponse where
  status : Nat
  paper : Option PaperRow
  cached : Option Bool
  error : Option String
deriving Repr, DecidableEq

/-- An error response `{ error: msg }` with the given status. -/
def errorResp (status : Nat) (msg : String) : ApiResponse :=
  { status := status, paper := none, cached := none, error := some msg }

/-- A success response `{ paper, cached }`. -/
def okPaper (p : PaperRow) (cached : Bool) : ApiResponse :=
  { status := 200, paper := some p, cached := some cached, error := none }

/-- `POST /api/summarize`.  `paperId` is the request body field (`none` when
absent); `aiConfigured` is `isAIConfigured()`; `provider` is the outcome of
`summarizePaper` (thrown call/parse failure, or the parsed summary). -/
def summarizePost (st : Store) (paperId : Option String) (aiConfigured : Bool)
    (provider : Except Unit PaperSummary) (now : Int) : Store × ApiResponse :=
  if ¬ jsTruthy paperId then (st, errorResp 400 "Paper ID is required")
  else if ¬ aiConfigured then (st, errorResp 503 "AI provider is not configured")
  else
    match getPaperById st (paperId.getD "") with
    | none => (st, errorResp 404 "Paper not found")
    | some paper =>
      if jsTruthy paper.hook && jsTruthy paper.summary then
        (st, okPaper paper true)
      else
        match provider with
        | .error _ => (st, errorResp 500 "Failed to summarize paper")
        | .ok s =>
          match updatePaperSummary st (paperId.getD "") s now with
          | (st', some p) => (st', okPaper p false)
          | (_, none) => (st, errorResp 500 "Failed to summarize paper")

/-- `POST /api/deep-summary`: same shape as `summarizePost`, cached on a
non-null `deepSummary` (an object is always truthy). -/
def deepSummaryPost (st : Store) (paperId : Option String) (aiConfigured : Bool)
    (provider : Except Unit DeepSummary) (now : Int) : Store × ApiResponse :=
  if ¬ jsTruthy paperId then (st, errorResp 400 "Paper ID is required")
  else if ¬ aiConfigured then (st, errorResp 503 "AI is not configured")
  else
    match getPaperById st (paperId.getD "") with
    | none => (st, errorResp 404 "Paper not found")
    | some paper =>
      if ¬ paper.deepSummary = none then
        (st, okPaper paper true)
      else
        match provider with
        | .error _ => (st, errorResp 500 "Failed to generate deep summary")
        | .ok d =>
          match updatePaperDeepSummary st paper.id d now with
          | (st', some p) => (st', okPaper p false)
          | (_, none) => (st, errorResp 500 "Failed to generate deep summary")

/-- `POST /api/figures`.  `extract` is the outcome of
`extractFiguresFromAr5iv`; `aiSelect` the outcome of `selectBestFigure` when
the provider is called (thrown failure triggers the first-figure fallback). -/
def figuresPost (st : Store) (paperId : Option String)
    (extract : FigureExtractionResult) (aiConfigured : Bool)
    (aiSelect : Except Unit (Option SelectedFigure)) (now : Int) :
    Store × ApiResponse :=
  if ¬ jsTruthy paperId then (st, errorResp 400 "Paper ID is required")
  else
    match getPaperById st (paperId.getD "") with
    | none => (st, errorResp 404 "Paper not found")
    | some paper =>
      if ¬ paper.figures = none ∨ ¬ paper.figuresError = none then
        (st, okPaper paper true)
      else if jsTruthy extract.error then
        match updatePaperFigures st paper.id [] none extract.error now with
        | (st', some p) =>
          (st', { status := 200, paper := some p, cached := none,
                  error := extract.error })
        | (_, none) => (st, errorResp 500 "Failed to extract figures")
      else
        let selected : Option SelectedFigure :=
          if 0 < extract.figures.length ∧ aiConfigured then
            match aiSelect with
            | .ok sel => sel
            | .error _ =>
              match extract.figures with
              | f :: _ => some { figure := some f, reason := "First figure" }
              | [] => none
          else if 0 < extract.figures.length then
            match extract.figures with
            | f :: _ => some { figure := some f, reason := "First figure" }
            | [] => none
          else none
        match updatePaperFigures st paper.id extract.figures selected none now with
        | (st', some p) => (st', okPaper p false)
        | (_, none) => (st, errorResp 500 "Failed to extract figures")

/-! ## Claim C10: discarded marks survive `markPaperAsSeen` -/

/-- `isPaperDiscarded` written with `Option` combinators (`?? false`). -/
theorem isPaperDiscarded_spec (st : Store) (pid : String) :
    isPaperDiscarded st pid
      = ((st.seen.find? (fun m => m.paperId == pid)).map SeenRow.discarded).getD false := by
  unfold isPaperDiscarded
  cases st.seen.find? (fun m => m.paperId == pid) <;> rfl

/-- C10: for a paper whose seen mark has `discarded = true`, a later
`markPaperAsSeen` call leaves the store unchanged (its upsert performs an
empty update on the existing mark), so `isPaperDiscarded` stays `true`;
`markPaperAsDiscarded` also preserves it; the mark (and with it the discarded
state) is cleared by deleting it via `unmarkPaperAsSeen`. -/
theorem claim_C10 (st : Store) (pid : String)
    (h : isPaperDiscarded st pid = true) :
    markPaperAsSeen st pid = st ∧
    isPaperDiscarded (markPaperAsSeen st pid) pid = true ∧
    isPaperDiscarded (markPaperAsDiscarded st pid) pid = true ∧
    isPaperSeen (unmarkPaperAsSeen st pid) pid = false ∧
    isPaperDiscarded (unmarkPaperAsSeen st pid) pid = false := by
  have hex : ∃ m, st.seen.find? (fun m => m.paperId == pid) = some m ∧
      m.discarded = true := by
    unfold isPaperDiscarded at h
    cases hfind : st.seen.find? (fun m => m.paperId == pid) with
    | none => rw [hfind] at h; exact absurd h (by simp)
    | some m => rw [hfind] at h; exact ⟨m, rfl, h⟩
  obtain ⟨m, hfind, hdisc⟩ := hex
  have hm0 := List.find?_some hfind
  have hm : (m.paperId == pid) = true := hm0
  have h1 : markPaperAsSeen st pid = st := by
    unfold markPaperAsSeen; rw [hfind]
  have hmap : (st.seen.map
      (fun x => if x.paperId == pid then { x with discarded := true } else x)).find?
        (fun x => x.paperId == pid) = some { m with discarded := true } := by
    rw [List.find?_map]
    have hpf : ((fun x : SeenRow => x.paperId == pid) ∘
        (fun x : SeenRow => if x.paperId == pid then { x with discarded := true } else x))
        = (fun x : SeenRow => x.paperId == pid) := by
      funext x
      by_cases hx : x.paperId = pid
      · simp [hx]
      · simp [hx]
    rw [hpf, hfind, Option.map_some', if_pos hm]
  have hseen2 : (markPaperAsDiscarded st pid).seen
      = st.seen.map (fun x => if x.paperId == pid then { x with discarded := true } else x) := by
    unfold markPaperAsDiscarded
    rw [hfind]
  have hnone : (st.seen.filter (fun x => !(x.paperId == pid))).find?
      (fun x => x.paperId == pid) = none := by
    rw [List.find?_eq_none]
    intro x hx
    have hxp := (List.mem_filter.mp hx).2
    simp only [Bool.not_eq_eq_eq_not, Bool.not_true] at hxp
    simp [hxp]
  refine ⟨h1, ?_, ?_, ?_, ?_⟩
  · rw [h1]; exact h
  · rw [isPaperDiscarded_spec, hseen2, hmap]; rfl
  · show ((st.seen.filter (fun x => !(x.paperId == pid))).find?
        (fun x => x.paperId == pid)).isSome = false
    rw [hnone]; rfl
  · rw [isPaperDiscarded_spec]
    show (((st.seen.filter (fun x => !(x.paperId == pid))).find?
        (fun x => x.paperId == pid)).map SeenRow.discarded).getD false = false
    rw [hnone]; rfl

/-- Concrete store with one discarded mark, for the C10 witness. -/
def seenStoreExample : Store :=
  { papers := [], seen := [{ paperId := "p1", discarded := true }] }

/-- Witness for C10 at a concrete store with a discarded mark. -/
theorem claim_C10_witness :
    markPaperAsSeen seenStoreExample "p1" = seenStoreExample ∧
    isPaperDiscarded (markPaperAsSeen seenStoreExample "p1") "p1" = true ∧
    isPaperDiscarded (markPaperAsDiscarded seenStoreExample "p1") "p1" = true ∧
    isPaperSeen (unmarkPaperAsSeen seenStoreExample "p1") "p1" = false ∧
    isPaperDiscarded (unmarkPaperAsSeen seenStoreExample "p1") "p1" = false :=
  claim_C10 seenStoreExample "p1" (by decide)

/-! ## Claim C4: figure-selection index normalization -/

/-- C4 counterexample: the claim says an out-of-range `selectedIndex` always
yields `null`; but for the negative index `-1` on a one-element figure list
(out of range for 1-based positions) the code does not return `null` — it
spreads the `undefined` array read and returns a reason-only object. -/
theorem claim_C4_counterexample :
    selectBestFigure [{ url := "u", caption := "c", index := 1, alt := none }]
        { selectedIndex := -1, reason := "r" } ≠ none ∧
    selectBestFigure [{ url := "u", caption := "c", index := 1, alt := none }]
        { selectedIndex := -1, reason := "r" }
      = some { figure := none, reason := "r" } := by
  decide

/-- C4 (amended): for a non-empty figure list, a reply index of `0` or greater
than the figure count yields `null`; an index in `1..n` yields the figure at
that 1-based position extended with the reply's reason; a negative index is
not normalized to `null` but yields a reason-only selection (the JS
out-of-bounds read produces `undefined`, never a thrown error). -/
theorem claim_C4 (figures : List PaperFigure) (reply : FigureSelectReply)
    (hne : figures ≠ []) :
    (reply.selectedIndex = 0 ∨ (figures.length : Int) < reply.selectedIndex →
        selectBestFigure figures reply = none) ∧
    (∀ (_ : 1 ≤ reply.selectedIndex) (_ : reply.selectedIndex ≤ (figures.length : Int)),
        ∃ hlt : (reply.selectedIndex - 1).toNat < figures.length,
          selectBestFigure figures reply =
            some { figure := some (figures.get ⟨(reply.selectedIndex - 1).toNat, hlt⟩),
                   reason := reply.reason }) ∧
    (reply.selectedIndex < 0 →
        selectBestFigure figures reply = some { figure := none, reason := reply.reason }) := by
  have hlen : ¬ figures.length = 0 := by
    simp only [List.length_eq_zero]
    exact hne
  refine ⟨?_, ?_, ?_⟩
  · intro hcond
    simp [selectBestFigure, hlen, hcond]
  · intro h1 h2
    have hne0 : ¬ (reply.selectedIndex = 0 ∨ (figures.length : Int) < reply.selectedIndex) := by
      push_neg
      omega
    have hlt : (reply.selectedIndex - 1).toNat < figures.length := by omega
    refine ⟨hlt, ?_⟩
    have hget : jsGetFigure figures (reply.selectedIndex - 1)
        = some (figures.get ⟨(reply.selectedIndex - 1).toNat, hlt⟩) := by
      unfold jsGetFigure
      rw [if_pos (by omega : (0 : Int) ≤ reply.selectedIndex - 1)]
      rw [List.getElem?_eq_getElem hlt]
      rfl
    simp [selectBestFigure, hlen, hne0, hget]
  · intro hneg
    have hne0 : ¬ (reply.selectedIndex = 0 ∨ (figures.length : Int) < reply.selectedIndex) := by
      push_neg
      omega
    have hget : jsGetFigure figures (reply.selectedIndex - 1) = none := by
      unfold jsGetFigure
      rw [if_neg (by omega : ¬ (0 : Int) ≤ reply.selectedIndex - 1)]
    simp [selectBestFigure, hlen, hne0, hget]

/-- Witness for C4: index `0` on a non-empty list yields no selection. -/
theorem claim_C4_witness :
    selectBestFigure [{ url := "u", caption := "c", index := 1, alt := none }]
        { selectedIndex := 0, reason := "r" } = none :=
  (claim_C4 [{ url := "u", caption := "c", index := 1, alt := none }]
      { selectedIndex := 0, reason := "r" } (by decide)).1 (Or.inl rfl)

/-! ## Claim C8: extractor boundary behaviour -/

/-- C8: `extractFiguresFromAr5iv` is total by construction (every fetch
outcome, thrown or not, maps to a result).  Moreover: the result depends on
the network only at the URL built from the version-stripped identifier; a
`v<digits>` suffix is indeed stripped; HTTP 404 yields exactly the error
`"ar5iv rendering not available"`; any other non-2xx status yields an error
string carrying that status code; and whenever the error channel is set the
figure list is empty. -/
theorem claim_C8 (arxivId : String) (fetch : String → FetchOutcome) :
    (∀ fetch₂ : String → FetchOutcome,
        fetch (AR5IV_BASE ++ "/" ++ stripVersionSuffix arxivId)
          = fetch₂ (AR5IV_BASE ++ "/" ++ stripVersionSuffix arxivId) →
        extractFiguresFromAr5iv arxivId fetch = extractFiguresFromAr5iv arxivId fetch₂) ∧
    (∀ (s ds : List Char), ds ≠ [] → (∀ c ∈ ds, c.isDigit = true) →
        stripVersionSuffix (String.mk (s ++ 'v' :: ds)) = String.mk s) ∧
    (∀ body, fetch (AR5IV_BASE ++ "/" ++ stripVersionSuffix arxivId)
          = FetchOutcome.success 404 body →
        extractFiguresFromAr5iv arxivId fetch
          = { figures := [], error := some "ar5iv rendering not available" }) ∧
    (∀ status body, fetch (AR5IV_BASE ++ "/" ++ stripVersionSuffix arxivId)
          = FetchOutcome.success status body →
        responseOk status = false → status ≠ 404 →
        extractFiguresFromAr5iv arxivId fetch
          = { figures := [], error := some ("ar5iv returned " ++ toString status) }) ∧
    ((extractFiguresFromAr5iv arxivId fetch).error.isSome = true →
        (extractFiguresFromAr5iv arxivId fetch).figures = []) := by
  refine ⟨?_, ?_, ?_, ?_, ?_⟩
  · intro fetch₂ hsame
    unfold extractFiguresFromAr5iv
    simp only [hsame]
  · intro s ds hne hdig
    have htake : List.takeWhile Char.isDigit (String.mk (s ++ 'v' :: ds)).data.reverse
        = ds.reverse := by
      show List.takeWhile Char.isDigit (s ++ 'v' :: ds).reverse = ds.reverse
      rw [List.reverse_append, List.reverse_cons, List.append_assoc,
        List.takeWhile_append]
      rw [List.takeWhile_eq_self_iff.mpr
        (by intro c hc; exact hdig c (List.mem_reverse.mp hc))]
      simp [List.takeWhile_cons_of_neg (by decide : ¬ ('v').isDigit = true)]
    have hdrop : List.drop ds.reverse.length (String.mk (s ++ 'v' :: ds)).data.reverse
        = 'v' :: s.reverse := by
      show List.drop ds.reverse.length (s ++ 'v' :: ds).reverse = 'v' :: s.reverse
      rw [List.reverse_append, List.reverse_cons, List.append_assoc, List.drop_left]
      rfl
    have hrevne : ds.reverse.isEmpty = false := by
      rw [List.isEmpty_eq_false]
      simp [hne]
    unfold stripVersionSuffix
    simp only [htake, hdrop, hrevne, Bool.false_eq_true, if_false]
    simp
  · intro body hf
    unfold extractFiguresFromAr5iv
    simp only [hf]
    have h1 : responseOk 404 = false := by decide
    simp [h1]
  · intro status body hf hok h404
    unfold extractFiguresFromAr5iv
    simp only [hf]
    simp [hok, h404]
  · intro herr
    cases hf : fetch (AR5IV_BASE ++ "/" ++ stripVersionSuffix arxivId) with
    | thrown msg => simp [extractFiguresFromAr5iv, hf]
    | success status body =>
      by_cases hok : responseOk status = true
      · unfold extractFiguresFromAr5iv at herr
        simp only [hf, hok] at herr
        simp at herr
      · have hok' : responseOk status = false := by
          cases hb : responseOk status
          · rfl
          · exact absurd hb hok
        simp only [extractFiguresFromAr5iv, hf, hok', Bool.not_false, if_true]
        split <;> rfl

/-- Witness for C8: a 404 fetch at the stripped URL gives the exact
"rendering not available" error. -/
theorem claim_C8_witness :
    extractFiguresFromAr5iv "2401.00001v2" (fun _ => FetchOutcome.success 404 "")
      = { figures := [], error := some "ar5iv rendering not available" } :=
  (claim_C8 "2401.00001v2" (fun _ => FetchOutcome.success 404 "")).2.2.1 "" rfl

/-! ## Store lookup helpers -/

/-- A row found by `getPaperById` carries the queried id. -/
theorem getPaperById_id (st : Store) (pid : String) (paper : PaperRow)
    (h : getPaperById st pid = some paper) : paper.id = pid := by
  have h' : st.papers.find? (fun r => r.id == pid) = some paper := h
  have h0 := List.find?_some h'
  have h1 : (paper.id == pid) = true := h0
  rwa [beq_iff_eq] at h1

/-- `getPaperById` after an id-preserving row rewrite. -/
theorem getPaperById_map (st : Store) (pid : String) (f : PaperRow → PaperRow)
    (hf : ∀ r, (f r).id = r.id) :
    getPaperById { st with papers := st.papers.map f } pid
      = (getPaperById st pid).map f := by
  show (st.papers.map f).find? (fun r => r.id == pid)
      = (st.papers.find? (fun r => r.id == pid)).map f
  rw [List.find?_map]
  have hpf : ((fun r : PaperRow => r.id == pid) ∘ f) = (fun r : PaperRow => r.id == pid) := by
    funext x
    show ((f x).id == pid) = (x.id == pid)
    rw [hf]
  rw [hpf]

/-- `find?` by id is unchanged by precomposition with an id-preserving map. -/
theorem find?_id_of_comp (pid : String) (g : PaperRow → PaperRow)
    (hg : ∀ r, (g r).id = r.id) (l : List PaperRow) (a : PaperRow)
    (h : l.find? (fun r => r.id == pid) = some a) :
    l.find? ((fun r => r.id == pid) ∘ g) = some a := by
  have hpg : ((fun r : PaperRow => r.id == pid) ∘ g) = (fun r : PaperRow => r.id == pid) := by
    funext x
    show ((g x).id == pid) = (x.id == pid)
    rw [hg]
  rw [hpg]
  exact h

/-! ## Claim C5: first-figure fallback without a configured provider -/

/-- C5: when the figures route runs with no generation provider configured
and the extractor returned figure list `fs` with no error, then for non-empty
`fs` the persisted and returned selected figure is exactly the first element
of `fs` with reason exactly `"First figure"`; for empty `fs` the fallback is
not applied and no figure is selected (while the empty list is persisted). -/
theorem claim_C5 (st : Store) (pid : String) (paper : PaperRow)
    (aiSelect : Except Unit (Option SelectedFigure)) (now : Int)
    (fs : List PaperFigure)
    (hpid : pid ≠ "") (hfind : getPaperById st pid = some paper)
    (hfig : paper.figures = none) (herr : paper.figuresError = none) :
    (∀ f rest, fs = f :: rest →
        (figuresPost st (some pid) { figures := fs, error := none } false aiSelect now).2
          = okPaper (setFigureFields fs
              (some { figure := some f, reason := "First figure" }) none now paper) false ∧
        getPaperById
            (figuresPost st (some pid) { figures := fs, error := none } false aiSelect now).1 pid
          = some (setFigureFields fs
              (some { figure := some f, reason := "First figure" }) none now paper)) ∧
    (fs = [] →
        (figuresPost st (some pid) { figures := fs, error := none } false aiSelect now).2
          = okPaper (setFigureFields [] none none now paper) false ∧
        getPaperById
            (figuresPost st (some pid) { figures := fs, error := none } false aiSelect now).1 pid
          = some (setFigureFields [] none none now paper)) := by
  have hjs : jsTruthy (some pid) = true := by simp [jsTruthy, hpid]
  have hid := getPaperById_id st pid paper hfind
  have hfind' : st.papers.find? (fun r => r.id == pid) = some paper := hfind
  constructor
  · intro f rest hfs
    subst hfs
    constructor
    · simp [figuresPost, updatePaperFigures, hfind', hfind, hfig, herr, hid, jsTruthy, hpid]
    · simp [figuresPost, updatePaperFigures, hfind', hfind, hfig, herr, hid, jsTruthy, hpid,
        getPaperById_map, getPaperById]
      refine ⟨paper, find?_id_of_comp pid _ (fun r => by split <;> rfl) st.papers paper hfind', ?_⟩
      rw [if_pos hid]
  · intro hfs
    subst hfs
    constructor
    · simp [figuresPost, updatePaperFigures, hfind', hfind, hfig, herr, hid, jsTruthy, hpid]
    · simp [figuresPost, updatePaperFigures, hfind', hfind, hfig, herr, hid, jsTruthy, hpid,
        getPaperById_map, getPaperById]
      refine ⟨paper, find?_id_of_comp pid _ (fun r => by split <;> rfl) st.papers paper hfind', ?_⟩
      rw [if_pos hid]

/-- C6 (amended): each enrichment route returns the stored record unchanged
with `cached = true`, independently of the provider oracle (hence without any
provider or network call) and without any write, when its cached check fires:
for summarize, `hook` and `summary` both truthy (non-null AND non-empty, the
JS `&&` check); for deep-summary, `deepSummary` non-null; for figures,
`figures` or `figuresError` non-null — in particular a persisted
figure-extraction error short-circuits every later figures request. -/
theorem claim_C6 (st : Store) (pid : String) (paper : PaperRow) (now : Int)
    (hpid : pid ≠ "") (hfind : getPaperById st pid = some paper) :
    (jsTruthy paper.hook = true → jsTruthy paper.summary = true →
        ∀ pr : Except Unit PaperSummary,
          summarizePost st (some pid) true pr now = (st, okPaper paper true)) ∧
    (paper.deepSummary ≠ none →
        ∀ pr : Except Unit DeepSummary,
          deepSummaryPost st (some pid) true pr now = (st, okPaper paper true)) ∧
    ((¬ paper.figures = none ∨ ¬ paper.figuresError = none) →
        ∀ (ex : FigureExtractionResult) (cfg : Bool)
          (sel : Except Unit (Option SelectedFigure)),
          figuresPost st (some pid) ex cfg sel now = (st, okPaper paper true)) := by
  have hjs : jsTruthy (some pid) = true := by simp [jsTruthy, hpid]
  refine ⟨?_, ?_, ?_⟩
  · intro hh hs pr
    simp [summarizePost, hjs, hfind, hh, hs]
  · intro hd pr
    simp [deepSummaryPost, hjs, hfind, hd]
  · intro hc ex cfg sel
    rcases hc with hc | hc
    · simp [figuresPost, hjs, hfind, hc]
    · simp [figuresPost, hjs, hfind, hc]

/-- C7: the summarize endpoint returns 400 when `paperId` is missing, 503
when (given a `paperId`) no provider credential is configured, 404 when
(given a `paperId` and a provider) no paper with that internal id exists, and
500 when the provider call fails or its reply does not parse (both modelled
as the thrown outcome); in every failure case the store is returned
unmodified. -/
theorem claim_C7 (st : Store) (now : Int) :
    (∀ (cfg : Bool) (pr : Except Unit PaperSummary),
        summarizePost st none cfg pr now = (st, errorResp 400 "Paper ID is required")) ∧
    (∀ (pid : String) (pr : Except Unit PaperSummary), pid ≠ "" →
        summarizePost st (some pid) false pr now
          = (st, errorResp 503 "AI provider is not configured")) ∧
    (∀ (pid : String) (pr : Except Unit PaperSummary), pid ≠ "" →
        getPaperById st pid = none →
        summarizePost st (some pid) true pr now = (st, errorResp 404 "Paper not found")) ∧
    (∀ (pid : String) (paper : PaperRow), pid ≠ "" →
        getPaperById st pid = some paper →
        (jsTruthy paper.hook && jsTruthy paper.summary) = false →
        summarizePost st (some pid) true (Except.error ()) now
          = (st, errorResp 500 "Failed to summarize paper")) := by
  refine ⟨?_, ?_, ?_, ?_⟩
  · intro cfg pr
    simp [summarizePost, jsTruthy]
  · intro pid pr hpid
    have hjs : jsTruthy (some pid) = true := by simp [jsTruthy, hpid]
    simp [summarizePost, hjs]
  · intro pid pr hpid hfind
    have hjs : jsTruthy (some pid) = true := by simp [jsTruthy, hpid]
    simp [summarizePost, hjs, hfind]
  · intro pid paper hpid hfind hcache
    have hjs : jsTruthy (some pid) = true := by simp [jsTruthy, hpid]
    simp [summarizePost, hjs, hfind, hcache]

/-- A freshly upserted row with no enrichment, for witnesses. -/
def freshRow : PaperRow :=
  { id := "p1"
    arxivId := "a1"
    title := "t"
    authors := []
    abstract := "ab"
    categories := []
    publishedDate := 0
    pdfUrl := "u"
    hook := none
    keyConcepts := none
    summary := none
    whyMatters := none
    deepSummary := none
    figures := none
    selectedFigure := none
    figuresError := none
    createdAt := 0
    updatedAt := 0 }

/-- Store holding only `freshRow`. -/
def freshStore : Store := { papers := [freshRow], seen := [] }

/-- A sample extracted figure. -/
def demoFigure : PaperFigure :=
  { url := "https://x/f.png", caption := "cap", index := 1, alt := none }

/-- A sample parsed summary. -/
def demoSummary : PaperSummary :=
  { hook := "h", keyConcepts := [], summary := "s", whyMatters := "w" }

/-- A sample parsed deep summary. -/
def demoDeep : DeepSummary :=
  { category := "c"
    problem := "p"
    contributions := []
    technicalApproach := "t"
    priorWork := "pw"
    evaluation := "e"
    strengths := []
    limitations := []
    implications := "i"
    figureAnalysis := [] }

/-- Witness for C5: first-figure fallback on a store with one fresh paper. -/
theorem claim_C5_witness :
    (figuresPost freshStore (some "p1") { figures := [demoFigure], error := none }
        false (Except.ok none) 1).2
      = okPaper (setFigureFields [demoFigure]
          (some { figure := some demoFigure, reason := "First figure" }) none 1 freshRow) false ∧
    getPaperById (figuresPost freshStore (some "p1")
        { figures := [demoFigure], error := none } false (Except.ok none) 1).1 "p1"
      = some (setFigureFields [demoFigure]
          (some { figure := some demoFigure, reason := "First figure" }) none 1 freshRow) :=
  (claim_C5 freshStore "p1" freshRow (Except.ok none) 1 [demoFigure]
      (by decide) (by decide) (by decide) (by decide)).1 demoFigure [] rfl

/-- A row whose summarize cache check fields are set but with an empty hook. -/
def emptyHookRow : PaperRow :=
  { id := "p1"
    arxivId := "a1"
    title := "t"
    authors := []
    abstract := "ab"
    categories := []
    publishedDate := 0
    pdfUrl := "u"
    hook := some ""
    keyConcepts := none
    summary := some "s"
    whyMatters := none
    deepSummary := none
    figures := none
    selectedFigure := none
    figuresError := none
    createdAt := 0
    updatedAt := 0 }

/-- Store holding only `emptyHookRow`. -/
def emptyHookStore : Store := { papers := [emptyHookRow], seen := [] }

/-- C6 counterexample: a record whose `hook` and `summary` are both non-null
(`hook` is the empty string) is NOT served from cache: the summarize route's
JS truthiness check fails on `""`, so it calls the provider and writes. -/
theorem claim_C6_counterexample :
    emptyHookRow.hook ≠ none ∧ emptyHookRow.summary ≠ none ∧
    getPaperById emptyHookStore "p1" = some emptyHookRow ∧
    (summarizePost emptyHookStore (some "p1") true (Except.ok demoSummary) 1).2.cached
      = some false ∧
    (summarizePost emptyHookStore (some "p1") true (Except.ok demoSummary) 1).1
      ≠ emptyHookStore := by
  decide

/-- A fully cached row (truthy hook/summary, deep summary, figures present). -/
def cachedRow : PaperRow :=
  { id := "p1"
    arxivId := "a1"
    title := "t"
    authors := []
    abstract := "ab"
    categories := []
    publishedDate := 0
    pdfUrl := "u"
    hook := some "h"
    keyConcepts := some []
    summary := some "s"
    whyMatters := some "w"
    deepSummary := some demoDeep
    figures := some []
    selectedFigure := none
    figuresError := none
    createdAt := 0
    updatedAt := 0 }

/-- Store holding only `cachedRow`. -/
def cachedStore : Store := { papers := [cachedRow], seen := [] }

/-- Witness for C6: all three cached checks fire on `cachedStore`. -/
theorem claim_C6_witness :
    summarizePost cachedStore (some "p1") true (Except.error ()) 5
      = (cachedStore, okPaper cachedRow true) ∧
    deepSummaryPost cachedStore (some "p1") true (Except.error ()) 5
      = (cachedStore, okPaper cachedRow true) ∧
    figuresPost cachedStore (some "p1") { figures := [demoFigure], error := none }
        true (Except.ok none) 5
      = (cachedStore, okPaper cachedRow true) := by
  have h := claim_C6 cachedStore "p1" cachedRow 5 (by decide) (by decide)
  exact ⟨h.1 (by decide) (by decide) (Except.error ()),
    h.2.1 (by decide) (Except.error ()),
    h.2.2 (Or.inl (by decide)) { figures := [demoFigure], error := none } true (Except.ok none)⟩

/-- Witness for C7: the four failure statuses at concrete inputs. -/
theorem claim_C7_witness :
    summarizePost freshStore none true (Except.ok demoSummary) 0
      = (freshStore, errorResp 400 "Paper ID is required") ∧
    summarizePost freshStore (some "p1") false (Except.ok demoSummary) 0
      = (freshStore, errorResp 503 "AI provider is not configured") ∧
    summarizePost freshStore (some "zz") true (Except.ok demoSummary) 0
      = (freshStore, errorResp 404 "Paper not found") ∧
    summarizePost freshStore (some "p1") true (Except.error ()) 0
      = (freshStore, errorResp 500 "Failed to summarize paper") := by
  have h := claim_C7 freshStore 0
  exact ⟨h.1 true (Except.ok demoSummary),
    h.2.1 "p1" (Except.ok demoSummary) (by decide),
    h.2.2.1 "zz" (Except.ok demoSummary) (by decide) (by decide),
    h.2.2.2 "p1" freshRow (by decide) (by decide) (by decide)⟩

/-! ## Claim C1: upsert updates in place, never duplicates -/

/-- The internal id together with every enrichment column of a row — the
fields `upsertPaper`'s update clause must not touch. -/
def enrichmentFields (r : PaperRow) :
    String × Option String × Option (List String) × Option String × Option String ×
      Option DeepSummary × Option (List PaperFigure) × Option SelectedFigure ×
      Option String :=
  (r.id, r.hook, r.keyConcepts, r.summary, r.whyMatters, r.deepSummary,
    r.figures, r.selectedFigure, r.figuresError)

/-- Upserting an existing key leaves the `arxivId` column unchanged. -/
theorem upsert_arxivIds_update (st : Store) (freshId : String) (now : Int)
    (p : ArxivPaper) (r : PaperRow)
    (hfind : st.papers.find? (fun q => q.arxivId == p.arxivId) = some r) :
    (upsertPaper st freshId now p).1.papers.map (fun q => q.arxivId)
      = st.papers.map (fun q => q.arxivId) := by
  unfold upsertPaper
  rw [hfind]
  dsimp only
  rw [List.map_map]
  apply List.map_congr_left
  intro a _
  show (if a.arxivId == p.arxivId then applyBiblio a p now else a).arxivId = a.arxivId
  split <;> rfl

/-- C1: when a fetched record's `arxivId` already exists in the store,
`upsertPaper` keeps the row count (no second record), leaves the internal id
and every enrichment field of every row unchanged, keeps the key column
unchanged, rewrites the bibliographic fields of the matching row to the
fetched values, and does not touch the seen marks; moreover any sequence of
upserts preserves at-most-one-row-per-`arxivId`, and starting from the empty
store establishes it. -/
theorem claim_C1 :
    (∀ (st : Store) (freshId : String) (now : Int) (p : ArxivPaper),
        st.papers.any (fun r => r.arxivId == p.arxivId) = true →
        (upsertPaper st freshId now p).1.papers.length = st.papers.length ∧
        (upsertPaper st freshId now p).1.papers.map enrichmentFields
          = st.papers.map enrichmentFields ∧
        (upsertPaper st freshId now p).1.papers.map (fun r => r.arxivId)
          = st.papers.map (fun r => r.arxivId) ∧
        (∀ r ∈ (upsertPaper st freshId now p).1.papers, r.arxivId = p.arxivId →
          r.title = p.title ∧ r.authors = p.authors ∧ r.abstract = p.abstract ∧
          r.categories = p.categories ∧ r.publishedDate = p.publishedDate ∧
          r.pdfUrl = p.pdfUrl) ∧
        (upsertPaper st freshId now p).1.seen = st.seen) ∧
    (∀ (st : Store) (inputs : List (String × Int × ArxivPaper)),
        uniqueArxivIds st → uniqueArxivIds (upsertAll st inputs)) ∧
    (∀ inputs : List (String × Int × ArxivPaper),
        uniqueArxivIds (upsertAll { papers := [], seen := [] } inputs)) := by
  have hstep : ∀ (st : Store) (freshId : String) (now : Int) (p : ArxivPaper),
      uniqueArxivIds st → uniqueArxivIds (upsertPaper st freshId now p).1 := by
    intro st freshId now p hu
    cases hfind : st.papers.find? (fun q => q.arxivId == p.arxivId) with
    | some r =>
      unfold uniqueArxivIds
      rw [upsert_arxivIds_update st freshId now p r hfind]
      exact hu
    | none =>
      unfold upsertPaper uniqueArxivIds
      rw [hfind]
      dsimp only
      rw [List.map_append]
      have hone : List.map (fun q : PaperRow => q.arxivId) [createRow freshId p now]
          = [p.arxivId] := rfl
      rw [hone, List.nodup_append]
      refine ⟨hu, List.nodup_singleton _, ?_⟩
      intro a ha hb
      rcases List.mem_map.mp ha with ⟨q, hq, hqa⟩
      have hqa' : q.arxivId = a := hqa
      have hb' : a = p.arxivId := List.mem_singleton.mp hb
      have hnot := List.find?_eq_none.mp hfind q hq
      exact hnot (beq_iff_eq.mpr (hqa'.trans hb'))
  have hall : ∀ (inputs : List (String × Int × ArxivPaper)) (st : Store),
      uniqueArxivIds st → uniqueArxivIds (upsertAll st inputs) := by
    intro inputs
    induction inputs with
    | nil => intro st hu; exact hu
    | cons hd tl ih =>
      intro st hu
      rcases hd with ⟨freshId, now, p⟩
      exact ih _ (hstep st freshId now p hu)
  refine ⟨?_, fun st inputs hu => hall inputs st hu,
    fun inputs => hall inputs { papers := [], seen := [] } List.nodup_nil⟩
  intro st freshId now p hany
  rcases List.any_eq_true.mp hany with ⟨r0, hmem, hp⟩
  have hsome : (st.papers.find? (fun r => r.arxivId == p.arxivId)).isSome = true :=
    List.find?_isSome.mpr ⟨r0, hmem, hp⟩
  rcases Option.isSome_iff_exists.mp hsome with ⟨r, hfind⟩
  have hup : (upsertPaper st freshId now p).1.papers
      = st.papers.map (fun q => if q.arxivId == p.arxivId then applyBiblio q p now else q) := by
    unfold upsertPaper
    rw [hfind]
  have hseen : (upsertPaper st freshId now p).1.seen = st.seen := by
    unfold upsertPaper
    rw [hfind]
  refine ⟨?_, ?_, ?_, ?_, hseen⟩
  · rw [hup, List.length_map]
  · rw [hup, List.map_map]
    apply List.map_congr_left
    intro a _
    show enrichmentFields (if a.arxivId == p.arxivId then applyBiblio a p now else a)
      = enrichmentFields a
    split <;> rfl
  · exact upsert_arxivIds_update st freshId now p r hfind
  · intro r' hr' harx
    rw [hup] at hr'
    rcases List.mem_map.mp hr' with ⟨q, _, rfl⟩
    by_cases hq : (q.arxivId == p.arxivId) = true
    · rw [if_pos hq]
      exact ⟨rfl, rfl, rfl, rfl, rfl, rfl⟩
    · rw [if_neg hq] at harx ⊢
      exact absurd (beq_iff_eq.mpr harx) hq

/-- A re-fetched record with the same external identifier as `freshRow` but
changed bibliographic fields. -/
def demoArxiv : ArxivPaper :=
  { arxivId := "a1"
    title := "t2"
    authors := ["x"]
    abstract := "ab2"
    categories := ["cs.AI"]
    publishedDate := 5
    pdfUrl := "u2" }

/-- Witness for C1: upserting `demoArxiv` over `freshStore` (which already
holds arxivId "a1"). -/
theorem claim_C1_witness :
    (upsertPaper freshStore "p9" 9 demoArxiv).1.papers.length = freshStore.papers.length ∧
    (upsertPaper freshStore "p9" 9 demoArxiv).1.papers.map enrichmentFields
      = freshStore.papers.map enrichmentFields ∧
    (upsertPaper freshStore "p9" 9 demoArxiv).1.papers.map (fun r => r.arxivId)
      = freshStore.papers.map (fun r => r.arxivId) ∧
    (∀ r ∈ (upsertPaper freshStore "p9" 9 demoArxiv).1.papers, r.arxivId = demoArxiv.arxivId →
      r.title = demoArxiv.title ∧ r.authors = demoArxiv.authors ∧
      r.abstract = demoArxiv.abstract ∧ r.categories = demoArxiv.categories ∧
      r.publishedDate = demoArxiv.publishedDate ∧ r.pdfUrl = demoArxiv.pdfUrl) ∧
    (upsertPaper freshStore "p9" 9 demoArxiv).1.seen = freshStore.seen := by
  have hany : (freshStore.papers.any fun r => r.arxivId == demoArxiv.arxivId) = true := by
    decide
  exact claim_C1.1 freshStore "p9" 9 demoArxiv hany

/-! ## Claim C3: seen papers never appear in feed pages -/

/-- The feed window is a sublist of the sorted filtered table. -/
theorem feedWindow_sublist (st : Store) (cursor : Option String) (limit : Nat)
    (ex : Bool) : (feedWindow st cursor limit ex).Sublist (feedSorted st ex) := by
  unfold feedWindow
  dsimp only
  cases cursor with
  | none => exact List.take_sublist _ _
  | some c =>
    dsimp only
    cases (feedSorted st ex).findIdx? (fun r => r.id == c) with
    | none => exact List.nil_sublist _
    | some i => exact (List.take_sublist _ _).trans (List.drop_sublist _ _)

/-- The returned page is a sublist of the sorted filtered table. -/
theorem feed_papers_sublist (st : Store) (cursor : Option String) (limit : Nat)
    (ex : Bool) :
    ((getFeedPapers st cursor limit ex).papers).Sublist (feedSorted st ex) := by
  unfold getFeedPapers
  dsimp only
  split
  · exact (List.take_sublist _ _).trans (feedWindow_sublist st cursor limit ex)
  · exact feedWindow_sublist st cursor limit ex

/-- C3: a paper with a seen mark — discarded or not — is omitted from every
feed page computed with seen-exclusion enabled, at every cursor position; and
because the exclusion is part of the windowed query (before paging), a page
with a next cursor (a non-final page) always has exactly `limit` rows. -/
theorem claim_C3 (st : Store) (cursor : Option String) (limit : Nat) :
    (∀ mark ∈ st.seen, ∀ r ∈ (getFeedPapers st cursor limit true).papers,
        r.id ≠ mark.paperId) ∧
    ((getFeedPapers st cursor limit true).nextCursor.isSome = true →
        (getFeedPapers st cursor limit true).papers.length = limit) := by
  constructor
  · intro mark hmark r hr
    have hrS : r ∈ feedSorted st true :=
      List.Sublist.mem hr (feed_papers_sublist st cursor limit true)
    have hrS' : r ∈ (feedBase st true).insertionSort
        (fun a b => b.publishedDate ≤ a.publishedDate) := hrS
    have hrB : r ∈ feedBase st true :=
      (List.perm_insertionSort (fun a b => b.publishedDate ≤ a.publishedDate)
        (feedBase st true)).mem_iff.mp hrS' 
    have hne : (getSeenPaperIds st).isEmpty = false := by
      unfold getSeenPaperIds
      cases hseen : st.seen with
      | nil => rw [hseen] at hmark; exact absurd hmark (List.not_mem_nil mark)
      | cons a l => simp
    have hbase : feedBase st true
        = st.papers.filter (fun r => !((getSeenPaperIds st).contains r.id)) := by
      unfold feedBase
      simp [hne]
    rw [hbase] at hrB
    have hcont := (List.mem_filter.mp hrB).2
    intro heq
    have hmem : r.id ∈ getSeenPaperIds st := by
      rw [heq]
      exact List.mem_map.mpr ⟨mark, hmark, rfl⟩
    have htrue : (getSeenPaperIds st).contains r.id = true :=
      List.elem_eq_true_of_mem hmem
    rw [htrue] at hcont
    exact absurd hcont (by simp)
  · intro hsome
    unfold getFeedPapers at hsome ⊢
    dsimp only at hsome ⊢
    by_cases hm : limit < (feedWindow st cursor limit true).length
    · rw [if_pos hm, List.length_take]
      omega
    · rw [if_neg hm] at hsome
      exact absurd hsome (by simp)

/-! ## Claim C2: cursor pagination -/

/-- The feed's descending-date order is total. -/
instance : IsTotal PaperRow (fun a b => b.publishedDate ≤ a.publishedDate) :=
  ⟨fun a b => le_total b.publishedDate a.publishedDate⟩

/-- The feed's descending-date order is transitive. -/
instance : IsTrans PaperRow (fun a b => b.publishedDate ≤ a.publishedDate) :=
  ⟨fun _ _ _ hab hbc => le_trans hbc hab⟩

/-- Page assembly from the `limit + 1` window, as `getFeedPapers` computes it. -/
def mkFeedPage (window : List PaperRow) (limit : Nat) : FeedResult :=
  { papers := if limit < window.length then window.take limit else window
    nextCursor :=
      if limit < window.length then (window.take limit).getLast?.map (fun r => r.id)
      else none }

/-- `getFeedPapers` is page assembly applied to the feed window. -/
theorem getFeedPapers_eq_mk (st : Store) (cursor : Option String) (limit : Nat)
    (ex : Bool) :
    getFeedPapers st cursor limit ex = mkFeedPage (feedWindow st cursor limit ex) limit := by
  unfold getFeedPapers mkFeedPage
  dsimp only
  by_cases hm : limit < (feedWindow st cursor limit ex).length
  · simp [hm]
  · simp [hm]

/-- Without a cursor the window is the first `limit + 1` sorted rows. -/
theorem feedWindow_none (st : Store) (limit : Nat) (ex : Bool) :
    feedWindow st none limit ex = (feedSorted st ex).take (limit + 1) := rfl

/-- With a located cursor the window starts just past the cursor row. -/
theorem feedWindow_cursor (st : Store) (limit : Nat) (ex : Bool) (c : String)
    (i : Nat) (hidx : (feedSorted st ex).findIdx? (fun r => r.id == c) = some i) :
    feedWindow st (some c) limit ex
      = ((feedSorted st ex).drop (i + 1)).take (limit + 1) := by
  unfold feedWindow
  dsimp only
  rw [hidx]

/-- In a list with distinct keys, searching for the key of the `n`-th element
finds exactly position `n` (stated with the running start index of
`findIdx?`). -/
theorem findIdx?_key_nodup {α : Type} (key : α → String) (l : List α)
    (hnd : (l.map key).Nodup) (n : Nat) (hn : n < l.length) (i : Nat) :
    l.findIdx? (fun x => key x == key (l.get ⟨n, hn⟩)) i = some (i + n) := by
  induction l generalizing n i with
  | nil => exact absurd hn (by simp)
  | cons a as ih =>
    cases n with
    | zero =>
      have hg0 : (a :: as).get ⟨0, hn⟩ = a := rfl
      rw [List.findIdx?_cons, hg0, if_pos (beq_self_eq_true (key a))]
      simp
    | succ m =>
      have hm : m < as.length := by simpa using hn
      have hget : (a :: as).get ⟨m + 1, hn⟩ = as.get ⟨m, hm⟩ := rfl
      rw [List.findIdx?_cons]
      have hne' : ¬ key a = key (as.get ⟨m, hm⟩) := by
        intro hcontra
        have hmem : key a ∈ as.map key := by
          rw [hcontra]
          exact List.mem_map.mpr ⟨as.get ⟨m, hm⟩, List.get_mem as m hm, rfl⟩
        exact (List.nodup_cons.mp hnd).1 hmem
      rw [if_neg (by simp only [hget, beq_iff_eq]; exact hne')]
      have hrec := ih (List.nodup_cons.mp hnd).2 m hm (i + 1)
      rw [hget, hrec]
      congr 1
      omega

/-- The returned page of a `drop`/`take` window is the next `limit` rows. -/
theorem mkFeedPage_papers (S : List PaperRow) (start limit : Nat) :
    (mkFeedPage ((S.drop start).take (limit + 1)) limit).papers
      = (S.drop start).take limit := by
  unfold mkFeedPage
  dsimp only
  by_cases hm : limit < ((S.drop start).take (limit + 1)).length
  · rw [if_pos hm, List.take_take]
    congr 1
    omega
  · rw [if_neg hm]
    rw [List.length_take, List.length_drop] at hm
    have h1 : (S.drop start).length ≤ limit + 1 := by rw [List.length_drop]; omega
    have h2 : (S.drop start).length ≤ limit := by rw [List.length_drop]; omega
    rw [List.take_of_length_le h1, List.take_of_length_le h2]

/-- The next cursor of a `drop`/`take` window: the id of the row at position
`start + limit - 1` when a full page plus one more row exists, else none. -/
theorem mkFeedPage_nextCursor (S : List PaperRow) (start limit : Nat)
    (hlim : 0 < limit) :
    (mkFeedPage ((S.drop start).take (limit + 1)) limit).nextCursor
      = if start + limit < S.length
          then (S[start + limit - 1]?).map (fun r => r.id)
          else none := by
  unfold mkFeedPage
  dsimp only
  have hlen : ((S.drop start).take (limit + 1)).length
      = min (limit + 1) (S.length - start) := by
    rw [List.length_take, List.length_drop]
  by_cases hm : start + limit < S.length
  · have hc : limit < ((S.drop start).take (limit + 1)).length := by rw [hlen]; omega
    rw [if_pos hc, if_pos hm, List.take_take]
    have hminll : min limit (limit + 1) = limit := by omega
    rw [hminll, List.getLast?_eq_getElem?]
    have hlen2 : ((S.drop start).take limit).length = limit := by
      rw [List.length_take, List.length_drop]; omega
    rw [hlen2, List.getElem?_take, if_pos (by omega : limit - 1 < limit),
      List.getElem?_drop]
    congr 2
    omega
  · have hc : ¬ limit < ((S.drop start).take (limit + 1)).length := by rw [hlen]; omega
    rw [if_neg hc, if_neg hm]

/-- The cursor-chained pages are the successive `limit`-row segments of the
sorted filtered table, and the chain's cursor points one row past each full
page. -/
theorem feedChain_segment (st : Store) (limit : Nat)
    (hnd : ((feedSorted st true).map (fun r => r.id)).Nodup) (hlim : 0 < limit) :
    ∀ k, (feedChain st limit k).papers
        = ((feedSorted st true).drop (k * limit)).take limit ∧
      (feedChain st limit k).nextCursor
        = (if (k + 1) * limit < (feedSorted st true).length
            then ((feedSorted st true)[(k + 1) * limit - 1]?).map (fun r => r.id)
            else none) := by
  intro k
  induction k with
  | zero =>
    have h0 : feedChain st limit 0 = getFeedPapers st none limit true := rfl
    have hw : feedWindow st none limit true
        = ((feedSorted st true).drop 0).take (limit + 1) := by
      rw [feedWindow_none, List.drop_zero]
    rw [h0, getFeedPapers_eq_mk, hw]
    constructor
    · rw [mkFeedPage_papers]
      norm_num
    · rw [mkFeedPage_nextCursor _ _ _ hlim]
      norm_num
  | succ k ih =>
    obtain ⟨ihp, ihc⟩ := ih
    have hpos : 0 < (k + 1) * limit := Nat.mul_pos (Nat.succ_pos k) hlim
    have hmono : (k + 1) * limit ≤ (k + 1 + 1) * limit :=
      Nat.mul_le_mul_right limit (by omega)
    by_cases hk : (k + 1) * limit < (feedSorted st true).length
    · rw [if_pos hk] at ihc
      have hn : (k + 1) * limit - 1 < (feedSorted st true).length := by omega
      have hel : (feedSorted st true)[(k + 1) * limit - 1]?
          = some ((feedSorted st true).get ⟨(k + 1) * limit - 1, hn⟩) := by
        rw [List.getElem?_eq_getElem hn]
        rfl
      rw [hel] at ihc
      have hstep : feedChain st limit (k + 1)
          = getFeedPapers st
              (some (((feedSorted st true).get ⟨(k + 1) * limit - 1, hn⟩).id)) limit true := by
        simp only [feedChain]
        rw [ihc]
        rfl
      have hidx : (feedSorted st true).findIdx?
          (fun r => r.id == ((feedSorted st true).get ⟨(k + 1) * limit - 1, hn⟩).id)
          = some ((k + 1) * limit - 1) := by
        have h := findIdx?_key_nodup (fun r => r.id) (feedSorted st true) hnd
          ((k + 1) * limit - 1) hn 0
        simpa using h
      rw [hstep, getFeedPapers_eq_mk,
        feedWindow_cursor st limit true _ _ hidx]
      have harith : (k + 1) * limit - 1 + 1 = (k + 1) * limit := by omega
      rw [harith]
      constructor
      · rw [mkFeedPage_papers]
      · rw [mkFeedPage_nextCursor _ _ _ hlim]
        have h2 : (k + 1) * limit + limit = (k + 1 + 1) * limit := by ring
        rw [h2]
    · rw [if_neg hk] at ihc
      have hstep : feedChain st limit (k + 1)
          = { papers := [], nextCursor := none } := by
        simp only [feedChain]
        rw [ihc]
      rw [hstep]
      constructor
      · show ([] : List PaperRow) = _
        rw [List.drop_eq_nil_of_le
          (by omega : (feedSorted st true).length ≤ (k + 1) * limit),
          List.take_nil]
      · show (none : Option String) = _
        rw [if_neg (by omega : ¬ (k + 1 + 1) * limit < (feedSorted st true).length)]

/-- The filtered row set is a sublist of the paper table. -/
theorem feedBase_sublist (st : Store) (ex : Bool) :
    (feedBase st ex).Sublist st.papers := by
  unfold feedBase
  dsimp only
  split <;> split <;>
    first
    | exact List.filter_sublist _
    | exact List.Sublist.refl _

/-- A returned cursor is the id of some stored row. -/
theorem nextCursor_mem (st : Store) (cursor : Option String) (limit : Nat)
    (ex : Bool) (c : String)
    (h : (getFeedPapers st cursor limit ex).nextCursor = some c) :
    ∃ r ∈ st.papers, r.id = c := by
  rw [getFeedPapers_eq_mk] at h
  unfold mkFeedPage at h
  dsimp only at h
  by_cases hm : limit < (feedWindow st cursor limit ex).length
  · rw [if_pos hm] at h
    rcases Option.map_eq_some'.mp h with ⟨r, hr, hrc⟩
    have hr1 : r ∈ (feedWindow st cursor limit ex).take limit :=
      List.mem_of_mem_getLast? hr
    have hr2 : r ∈ feedWindow st cursor limit ex :=
      List.Sublist.mem hr1 (List.take_sublist _ _)
    have hr3 : r ∈ feedSorted st ex :=
      List.Sublist.mem hr2 (feedWindow_sublist st cursor limit ex)
    have hr3' : r ∈ (feedBase st ex).insertionSort
        (fun a b => b.publishedDate ≤ a.publishedDate) := hr3
    have hr4 : r ∈ feedBase st ex :=
      (List.perm_insertionSort (fun a b => b.publishedDate ≤ a.publishedDate)
        (feedBase st ex)).mem_iff.mp hr3'
    exact ⟨r, List.Sublist.mem hr4 (feedBase_sublist st ex), hrc⟩
  · rw [if_neg hm] at h
    exact absurd h (by simp)

/-- The feed route's `hasMore` flag (`!!nextCursor`) agrees with cursor
presence whenever stored ids are non-empty strings. -/
theorem feedRespond_hasMore (st : Store) (cursor : Option String)
    (hne : ∀ r ∈ st.papers, r.id ≠ "") :
    (feedRespond st cursor).hasMore
      = (getFeedPapers st cursor 10 true).nextCursor.isSome := by
  unfold feedRespond
  dsimp only
  cases hnc : (getFeedPapers st cursor 10 true).nextCursor with
  | none => rfl
  | some c =>
    rcases nextCursor_mem st cursor 10 true c hnc with ⟨r, hr, hrc⟩
    have hcne : c ≠ "" := hrc ▸ hne r hr
    simp [jsTruthy, hcne]

/-- C2: against a fixed store whose sorted feed has pairwise-distinct internal
ids (all non-empty), the feed pages are in descending publication-date order;
when more than `limit` eligible rows exist the cursorless page has exactly
`limit` rows and its cursor is the last returned row's id; the route's
`hasMore` is cursor presence; cursor-chained pages are the successive
`limit`-row segments of the sorted table (so each next page is the next
slice); pages are pairwise disjoint; and past the end the chain reports no
cursor. -/
theorem claim_C2 (st : Store) (limit : Nat)
    (hnd : ((feedSorted st true).map (fun r => r.id)).Nodup)
    (hlim : 0 < limit)
    (hne : ∀ r ∈ st.papers, r.id ≠ "") :
    (∀ cursor, ((getFeedPapers st cursor limit true).papers).Pairwise
        (fun a b => b.publishedDate ≤ a.publishedDate)) ∧
    (limit < (feedSorted st true).length →
        (getFeedPapers st none limit true).papers = (feedSorted st true).take limit ∧
        (getFeedPapers st none limit true).papers.length = limit ∧
        (getFeedPapers st none limit true).nextCursor
          = ((getFeedPapers st none limit true).papers.getLast?).map (fun r => r.id)) ∧
    (∀ cursor, (feedRespond st cursor).hasMore
        = (getFeedPapers st cursor 10 true).nextCursor.isSome) ∧
    (∀ k, (feedChain st limit k).papers
        = ((feedSorted st true).drop (k * limit)).take limit) ∧
    (∀ j k, j < k → ∀ r ∈ (feedChain st limit k).papers,
        r ∉ (feedChain st limit j).papers) ∧
    (∀ k, (feedSorted st true).length ≤ (k + 1) * limit →
        (feedChain st limit k).nextCursor = none) := by
  have hsorted : List.Sorted (fun a b => b.publishedDate ≤ a.publishedDate)
      (feedSorted st true) :=
    List.sorted_insertionSort (fun a b => b.publishedDate ≤ a.publishedDate)
      (feedBase st true)
  refine ⟨?_, ?_, fun cursor => feedRespond_hasMore st cursor hne, ?_, ?_, ?_⟩
  · intro cursor
    exact List.Pairwise.sublist (feed_papers_sublist st cursor limit true) hsorted
  · intro hlong
    have hw : feedWindow st none limit true
        = ((feedSorted st true).drop 0).take (limit + 1) := by
      rw [feedWindow_none, List.drop_zero]
    have hpap : (getFeedPapers st none limit true).papers
        = (feedSorted st true).take limit := by
      rw [getFeedPapers_eq_mk, hw, mkFeedPage_papers, List.drop_zero]
    have hm : limit < (feedWindow st none limit true).length := by
      rw [feedWindow_none, List.length_take]
      omega
    refine ⟨hpap, ?_, ?_⟩
    · rw [hpap, List.length_take]
      omega
    · rw [getFeedPapers_eq_mk]
      unfold mkFeedPage
      dsimp only
      rw [if_pos hm, if_pos hm]
  · exact fun k => (feedChain_segment st limit hnd hlim k).1
  · intro j k hjk r hrk hrj
    have hS : (feedSorted st true).Nodup := List.Nodup.of_map (fun r => r.id) hnd
    rw [(feedChain_segment st limit hnd hlim k).1] at hrk
    rw [(feedChain_segment st limit hnd hlim j).1] at hrj
    have hrk' : r ∈ (feedSorted st true).drop (k * limit) :=
      List.Sublist.mem hrk (List.take_sublist _ _)
    have hrj' : r ∈ (feedSorted st true).take ((j + 1) * limit) := by
      rw [List.take_drop] at hrj
      have hmem := List.Sublist.mem hrj (List.drop_sublist _ _)
      have harr : j * limit + limit = (j + 1) * limit := by ring
      rwa [harr] at hmem
    have hle : (j + 1) * limit ≤ k * limit :=
      Nat.mul_le_mul_right limit (by omega)
    exact List.disjoint_take_drop hS hle hrj' hrk'
  · intro k hpast
    rw [(feedChain_segment st limit hnd hlim k).2]
    rw [if_neg (by omega : ¬ (k + 1) * limit < (feedSorted st true).length)]

/-- Feed demo row with id `a` (newest). -/
def rowA : PaperRow := { freshRow with id := "a", arxivId := "aa", publishedDate := 3 }

/-- Feed demo row with id `b`. -/
def rowB : PaperRow := { freshRow with id := "b", arxivId := "bb", publishedDate := 2 }

/-- Feed demo row with id `c` (oldest). -/
def rowC : PaperRow := { freshRow with id := "c", arxivId := "cc", publishedDate := 1 }

/-- Demo store: three papers, the newest one marked seen (discarded). -/
def feedDemoStore : Store :=
  { papers := [rowC, rowA, rowB], seen := [{ paperId := "a", discarded := true }] }

/-- Witness for C3: with paper `a` seen, the page returned at limit 1 omits it
and, since a next cursor exists, has exactly 1 row. -/
theorem claim_C3_witness :
    rowB.id ≠ "a" ∧ (getFeedPapers feedDemoStore none 1 true).papers.length = 1 := by
  have h := claim_C3 feedDemoStore none 1
  exact ⟨h.1 { paperId := "a", discarded := true } (by decide) rowB (by decide),
    h.2 (by decide)⟩

/-- Witness for C2: on the demo store (eligible rows `b`, `c`) with limit 2,
page 0 is the first segment and page 1 the (empty) second segment. -/
theorem claim_C2_witness :
    (feedChain feedDemoStore 2 0).papers
      = ((feedSorted feedDemoStore true).drop (0 * 2)).take 2 ∧
    (feedChain feedDemoStore 2 1).papers
      = ((feedSorted feedDemoStore true).drop (1 * 2)).take 2 := by
  have h := claim_C2 feedDemoStore 2 (by decide) (by decide) (by decide)
  exact ⟨h.2.2.2.1 0, h.2.2.2.1 1⟩

/-! ## Claim C9: HTML figure parsing -/

/-- A pushed figure record carries the running index `i`. -/
theorem figOfBlock_index (b : List Char) (a : String) (i : Nat) (f : PaperFigure)
    (h : figOfBlock b a i = some f) : f.index = i := by
  unfold figOfBlock at h
  cases himg : findFirstImg b with
  | none => rw [himg] at h; exact absurd h (by simp)
  | some pr =>
    obtain ⟨src, alt⟩ := pr
    rw [himg] at h
    have hf := Option.some.inj h
    rw [← hf]

/-- A block yields a figure exactly when it has an image reference. -/
theorem figOfBlock_isSome (b : List Char) (a : String) (i : Nat) :
    (figOfBlock b a i).isSome = (findFirstImg b).isSome := by
  unfold figOfBlock
  cases findFirstImg b with
  | none => rfl
  | some pr => obtain ⟨src, alt⟩ := pr; rfl

/-- The indices of the built figures are consecutive starting at `i`. -/
theorem buildFigures_indices (a : String) :
    ∀ (blocks : List (List Char)) (i : Nat),
      (buildFigures a blocks i).map (fun f => f.index)
        = List.range' i (buildFigures a blocks i).length := by
  intro blocks
  induction blocks with
  | nil => intro i; rfl
  | cons b bs ih =>
    intro i
    cases hfb : figOfBlock b a i with
    | none =>
      unfold buildFigures
      rw [hfb]
      exact ih i
    | some f =>
      unfold buildFigures
      rw [hfb, List.map_cons, figOfBlock_index b a i f hfb, ih (i + 1),
        List.length_cons, List.range'_succ]

/-- Example document: two well-formed `ltx_figure` blocks (the first with an
image and a markup-bearing caption, the third with a root-relative image URL
and no caption) and one block with no image reference between them. -/
def exHtml : String :=
  "<p>intro</p><figure class=\"ltx_figure\"><img src=\"x1.png\" alt=\"A\"><figcaption>Cap <b>one</b></figcaption></figure><figure class=\"ltx_figure\"><p>no image</p></figure><figure class=\"ltx_figure\"><img src=\"/assets/x2.png\"></figure>"

set_option maxRecDepth 80000 in
/-- C9: `parseFiguresFromHtml` walks the figure blocks in document order
(the block scanner and the in-block image/caption scanners return the first
match by construction), skipping blocks without an image reference; returned
indices are consecutive `1..k`; a missing caption falls back to `"Figure N"`
and a present caption is stripped to plain text; relative image URLs are
rewritten to absolute ar5iv URLs; and on the example document with two
well-formed blocks and one image-less block it returns exactly 2 figures
with indices 1 and 2. -/
theorem claim_C9 :
    (∀ (html : String) (a : String),
        (parseFiguresFromHtml html a).map (fun f => f.index)
          = List.range' 1 (parseFiguresFromHtml html a).length) ∧
    (∀ (html : String) (a : String),
        parseFiguresFromHtml html a = buildFigures a (findFigureBlocks html) 1) ∧
    (∀ (a : String) (b : List Char) (bs : List (List Char)) (i : Nat),
        (findFirstImg b = none → buildFigures a (b :: bs) i = buildFigures a bs i) ∧
        (∀ f, figOfBlock b a i = some f →
            buildFigures a (b :: bs) i = f :: buildFigures a bs (i + 1)) ∧
        (figOfBlock b a i).isSome = (findFirstImg b).isSome) ∧
    (∀ (b : List Char) (i : Nat),
        (findFirstCaption b = none → captionFor b i = ("Figure " ++ toString i).data) ∧
        (∀ cap, findFirstCaption b = some cap → captionFor b i = stripHtml cap)) ∧
    (∀ (a src : String),
        (charsStartWith src.data "/".data = true →
            rewriteImgUrl a src = "https://ar5iv.labs.arxiv.org" ++ src) ∧
        (charsStartWith src.data "/".data = false →
            charsStartWith src.data "http".data = false →
            rewriteImgUrl a src
              = "https://ar5iv.labs.arxiv.org/html/" ++ a ++ "/" ++ src)) ∧
    (parseFiguresFromHtml exHtml "2401.00001"
      = [{ url := "https://ar5iv.labs.arxiv.org/html/2401.00001/x1.png",
           caption := "Cap one", index := 1, alt := none },
         { url := "https://ar5iv.labs.arxiv.org/assets/x2.png",
           caption := "Figure 2", index := 2, alt := none }]) := by
  refine ⟨?_, ?_, ?_, ?_, ?_, ?_⟩
  · intro html a
    exact buildFigures_indices a (findFigureBlocks html) 1
  · intro html a
    rfl
  · intro a b bs i
    refine ⟨?_, ?_, figOfBlock_isSome b a i⟩
    · intro himg
      have hfb : figOfBlock b a i = none := by unfold figOfBlock; rw [himg]
      show (match figOfBlock b a i with
        | some f => f :: buildFigures a bs (i + 1)
        | none => buildFigures a bs i) = buildFigures a bs i
      rw [hfb]
    · intro f hfb
      show (match figOfBlock b a i with
        | some f => f :: buildFigures a bs (i + 1)
        | none => buildFigures a bs i) = f :: buildFigures a bs (i + 1)
      rw [hfb]
  · intro b i
    constructor
    · intro hcap
      unfold captionFor
      rw [hcap]
    · intro cap hcap
      unfold captionFor
      rw [hcap]
  · intro a src
    constructor
    · intro hslash
      unfold rewriteImgUrl
      rw [if_pos hslash]
    · intro hslash hhttp
      unfold rewriteImgUrl
      rw [if_neg (by simp [hslash]), if_pos (by simp [hhttp])]
  · decide

/-- Witness for C9: the caption fallback and a root-relative URL rewrite at
concrete inputs. -/
theorem claim_C9_witness :
    captionFor ("<p>x</p>".data) 3 = ("Figure " ++ toString 3).data ∧
    rewriteImgUrl "2401.00001" "/img.png"
      = "https://ar5iv.labs.arxiv.org" ++ "/img.png" := by
  have h := claim_C9
  exact ⟨(h.2.2.2.1 ("<p>x</p>".data) 3).1 (by decide),
    (h.2.2.2.2.1 "2401.00001" "/img.png").1 (by decide)⟩

end ScrollXiv
